import Mathlib

/-!
Verification development for the Task_Flow_Backend task-management service.

The definitions below are a shallow embedding of the TypeScript sources:
`src/modules/tasks/tasks.service.ts` (TasksService),
`src/queues/scheduled-tasks/overdue-tasks.service.ts` (OverdueTasksService) and
`src/queues/task-processor/task-processor.service.ts` (TaskProcessorService).
The durable store is a list of task rows, timestamps are naturals
(milliseconds), and the BullMQ queue is a list of pending jobs.  A possibly
unavailable queue transport is modelled by a boolean `qAvailable` argument:
the services wrap every enqueue in a try/catch that swallows the failure, so
when the transport is down (`qAvailable = false`) the enqueue simply leaves
the queue unchanged while the rest of the operation proceeds.
-/

/-- Modelled from the spec: task status enum (`src/modules/tasks/enums/task-status.enum.ts`
is not part of the snapshot).  Spec section 3: `pending`, `in_progress`, `completed`;
the enum values are stored as text. -/
inductive TaskStatus where
  | pending
  | in_progress
  | completed
deriving DecidableEq, Repr

/-- Modelled from the spec: task priority enum (`task-priority.enum.ts` is not part
of the snapshot).  Spec section 3: `low`, `medium`, `high`. -/
inductive TaskPriority where
  | low
  | medium
  | high
deriving DecidableEq, Repr

/-- The text value of a status, as it appears interpolated into job ids. -/
def statusText : TaskStatus → String
  | .pending => "pending"
  | .in_progress => "in_progress"
  | .completed => "completed"

/-- Modelled from the spec: the `TaskEntity` entity (`entities/task.entity.ts` is not part
of the snapshot).  Spec section 3: opaque unique id, title/description as the
free-form descriptive fields, status, priority, optional due date, owning
userId, and server-assigned createdAt/updatedAt timestamps. -/
structure TaskEntity where
  id : String
  title : String
  description : String
  status : TaskStatus
  priority : TaskPriority
  dueDate : Option Nat
  userId : String
  createdAt : Nat
  updatedAt : Nat
deriving DecidableEq, Repr

/-- The durable relational store: the `tasks` table as a list of rows. -/
abbrev TaskStore := List TaskEntity

/-- Typed payload of a queued job, one shape per job kind (spec section 9 models
the dynamic `job.data` as a tagged union keyed by job type). -/
inductive JobData where
  /-- `{ taskId, status }` payload of a `task-status-update` job. -/
  | statusUpdate (taskId : String) (status : TaskStatus)
  /-- `{ taskId }` payload of a `process-overdue-task` job (OverdueTasksService). -/
  | overdueTask (taskId : String)
  /-- `{ notifyUsers }` payload of an `overdue-tasks-notification` job. -/
  | overdueNotification (notifyUsers : Bool)
deriving DecidableEq, Repr

/-- A job handed to `taskQueue.add`: its BullMQ name, its payload, and the
optional caller-supplied `jobId` deduplication key. -/
structure QueueJob where
  name : String
  data : JobData
  jobId : Option String
deriving DecidableEq, Repr

/-- The pending contents of the `task-processing` queue. -/
abbrev Queue := List QueueJob

/-- Modelled from the spec: BullMQ `Queue.add` (the queue library is external).
Spec section 4.2: at-least-once enqueue; if a job with the same dedupe key is
already pending the call is a no-op, otherwise the job is appended.  A job
without a `jobId` is always appended. -/
def enqueue (q : Queue) (j : QueueJob) : Queue :=
  match j.jobId with
  | some k => if (List.any q fun j2 => j2.jobId == some k) then q else q ++ [j]
  | none => q ++ [j]

/-- The `task-status-update` job built by `TasksService.create`
(tasks.service.ts lines 66-76): payload `{ taskId, status }` and dedupe key
`task-status-update:<taskId>:<status>`. -/
def createJob (taskId : String) (st : TaskStatus) : QueueJob :=
  { name := "task-status-update"
    data := JobData.statusUpdate taskId st
    jobId := some ("task-status-update:" ++ taskId ++ ":" ++ statusText st) }

/-- The `task-status-update` job built by `TasksService.update` (lines 152-155)
and by the `batchProcess` bulk enqueue (lines 308-313): payload only, no
options and in particular no `jobId` dedupe key. -/
def updJob (taskId : String) (st : TaskStatus) : QueueJob :=
  { name := "task-status-update"
    data := JobData.statusUpdate taskId st
    jobId := none }

/-- The `process-overdue-task` job built by `OverdueTasksService.checkOverdueTasks`
(overdue-tasks.service.ts lines 66-70): payload `{ taskId }`, dedupe key
`overdue-<taskId>`. -/
def overdueJob (taskId : String) : QueueJob :=
  { name := "process-overdue-task"
    data := JobData.overdueTask taskId
    jobId := some ("overdue-" ++ taskId) }

/-- NestJS error classes raised by the service layer. -/
inductive ServiceError where
  | notFound (msg : String)
  | badRequest (msg : String)
deriving DecidableEq, Repr

-- Service results are compared for equality in concrete scenario theorems.
deriving instance DecidableEq for Except

/-- Modelled from the spec: `CreateTaskDto` (`dto/create-task.dto.ts` is not part
of the snapshot).  Spec sections 3 and 4.3: descriptive fields, status,
priority, optional due date, owning userId. -/
structure CreateTaskDto where
  title : String
  description : String
  status : TaskStatus
  priority : TaskPriority
  dueDate : Option Nat
  userId : String
deriving DecidableEq, Repr

/-- Modelled from the spec: `UpdateTaskDto` (`dto/update-task.dto.ts` is not part
of the snapshot).  A partial patch: every field optional; `id`, `userId` and
the audit timestamps are not client-patchable (spec section 3: `id` immutable,
`updatedAt` server-assigned). -/
structure UpdateTaskDto where
  title : Option String
  description : Option String
  status : Option TaskStatus
  priority : Option TaskPriority
  dueDate : Option Nat
deriving DecidableEq, Repr

/-- Result of `TasksService.create`: the committed store, the queue after the
best-effort enqueue, and the saved row returned to the caller. -/
structure CreateOutcome where
  store : TaskStore
  queue : Queue
  task : TaskEntity
deriving DecidableEq, Repr

/-- `TasksService.create` (tasks.service.ts lines 55-83): inside one
transaction, persist the new row, then try to enqueue a `task-status-update`
job with dedupe key `task-status-update:<id>:<status>`; a queue failure is
caught and logged (`qAvailable = false` leaves the queue untouched) and the
create still returns the saved task.  `newId` is the generated UUID and `now`
the server clock. -/
def TasksService.create (store : TaskStore) (q : Queue) (qAvailable : Bool)
    (dto : CreateTaskDto) (newId : String) (now : Nat) : CreateOutcome :=
  let saved : TaskEntity :=
    { id := newId, title := dto.title, description := dto.description
      status := dto.status, priority := dto.priority, dueDate := dto.dueDate
      userId := dto.userId, createdAt := now, updatedAt := now }
  { store := store ++ [saved]
    queue := if qAvailable then enqueue q (createJob saved.id saved.status) else q
    task := saved }

/-- The single `UPDATE ... SET {...dto, updatedAt: NOW()} RETURNING *` of
`TasksService.update` (lines 134-143) applied to one row: fields present in
the patch replace the row's fields, absent fields are untouched, and
`updatedAt` is refreshed server-side. -/
def applyPatch (t : TaskEntity) (dto : UpdateTaskDto) (now : Nat) : TaskEntity :=
  { t with
    title := dto.title.getD t.title
    description := dto.description.getD t.description
    status := dto.status.getD t.status
    priority := dto.priority.getD t.priority
    dueDate := match dto.dueDate with | some d => some d | none => t.dueDate
    updatedAt := now }

/-- Result of `TasksService.update`: committed store, queue after the
best-effort enqueue, and the post-update row image returned to the caller. -/
structure UpdateOutcome where
  store : TaskStore
  queue : Queue
  task : TaskEntity
deriving DecidableEq, Repr

/-- `TasksService.update` (tasks.service.ts lines 124-163): inside one
transaction read the pre-update status (NotFound if the id is absent), run the
single UPDATE with RETURNING, and compute
`statusChanged = dto.status !== undefined && dto.status !== before.status`.
After the transaction, if and only if `statusChanged`, fire-and-forget enqueue
a `task-status-update` job carrying `{ taskId, status }` and no job options
(no dedupe key); an enqueue failure is caught and logged. -/
def TasksService.update (store : TaskStore) (q : Queue) (qAvailable : Bool)
    (id : String) (dto : UpdateTaskDto) (now : Nat) : Except ServiceError UpdateOutcome :=
  match store.find? (fun t => t.id == id) with
  | none => .error (.notFound "TaskEntity not found")
  | some before =>
    let store' := store.map fun t => if t.id == id then applyPatch t dto now else t
    let updated := applyPatch before dto now
    let statusChanged : Bool :=
      match dto.status with
      | some st => st != before.status
      | none => false
    let q' :=
      if statusChanged then
        if qAvailable then enqueue q (updJob updated.id updated.status) else q
      else q
    .ok { store := store', queue := q', task := updated }

/-- `TasksService.updateStatus` (tasks.service.ts lines 222-227), the terminal
effect of a status-update job: `findOneOrFail` then mutate the status and save
(the save refreshes the server-assigned `updatedAt`). -/
def TasksService.updateStatus (store : TaskStore) (id : String) (status : TaskStatus)
    (now : Nat) : Except ServiceError (TaskStore × TaskEntity) :=
  match store.find? (fun t => t.id == id) with
  | none => .error (.notFound "TaskEntity not found")
  | some task =>
    let saved := { task with status := status, updatedAt := now }
    .ok (store.map (fun t => if t.id == id then saved else t), saved)

/-- The WHERE clause of `TasksService.findOverdueTasks` (lines 197-204) and of
the overdue scan (overdue-tasks.service.ts lines 46-53): due date strictly
before the cutoff and status equal to `pending`. -/
def overdueWhere (cutoff : Nat) (t : TaskEntity) : Bool :=
  (match t.dueDate with | some d => decide (d < cutoff) | none => false)
    && t.status == TaskStatus.pending

/-- `TasksService.findOverdueTasks` (tasks.service.ts lines 194-205):
`repository.find` with `dueDate: LessThan(now)`, `status: PENDING`,
`take: limit`, `skip: offset`; the query specifies no ordering, so rows come
back in the store's iteration order. -/
def TasksService.findOverdueTasks (store : TaskStore) (now : Nat)
    (limit offset : Nat) : List TaskEntity :=
  ((store.filter (overdueWhere now)).drop offset).take limit

/-- One per-item entry of a batch result (`dto/batch-process.dto.ts`,
`BatchItemResult`): either `{ taskId, success: true, result }` or
`{ taskId, success: false, error }`. -/
inductive BatchItemResult where
  | ok (taskId : String) (result : String)
  | err (taskId : String) (error : String)
deriving DecidableEq, Repr

/-- The task id an item entry refers to. -/
def BatchItemResult.taskId : BatchItemResult → String
  | .ok t _ => t
  | .err t _ => t

/-- `BatchProcessResult` (`dto/batch-process.dto.ts`): the action echoed back,
requested / affected / not-found counts and the per-item entries.  The action
is carried as its runtime string value (`complete` / `delete`). -/
structure BatchProcessResult where
  action : String
  requested : Nat
  affected : Nat
  notFound : Nat
  results : List BatchItemResult
deriving DecidableEq, Repr

/-- A database statement issued by `batchProcess`, recorded so that theorems
can speak about which queries run before a rejection. -/
inductive DbOp where
  /-- the existence fetch `repo.find({ where: { id: In(ids) } })` (lines 271-274) -/
  | readTasks (ids : List String)
  /-- the conditional bulk `UPDATE ... WHERE id IN (...) AND status <> completed` (lines 283-290) -/
  | bulkUpdate (ids : List String)
  /-- the bulk `DELETE ... WHERE id IN (...)` (lines 319-324) -/
  | bulkDelete (ids : List String)
deriving DecidableEq, Repr

/-- Result of a successful `batchProcess`: the returned `BatchProcessResult`,
the committed store, and the queue after the best-effort bulk enqueue. -/
structure BatchOutcome where
  res : BatchProcessResult
  store : TaskStore
  queue : Queue
deriving DecidableEq, Repr

/-- `TasksService.batchProcess` (tasks.service.ts lines 260-346).  Empty input
is rejected up front.  Inside one transaction: fetch the existing subset once;
for `complete` run one conditional bulk UPDATE restricted to rows not already
completed, tag each input id `not_found` / `updated` / `noop`, and bulk-enqueue
one keyless `task-status-update` job per actually-changed id (queue failures
swallowed, modelled by `qAvailable`); for `delete` run one bulk DELETE over the
existing ids and tag each input id `deleted` / `not_found`; any other action
value throws `BadRequestException` - after the existence fetch has already
run.  The second component records the database statements issued. -/
def TasksService.batchProcess (store : TaskStore) (q : Queue) (qAvailable : Bool)
    (ids : List String) (action : String) (now : Nat) :
    Except ServiceError BatchOutcome × List DbOp :=
  if ids.length = 0 then
    (.error (.badRequest "No task IDs provided"), [])
  else
    let existing := store.filter fun t => ids.contains t.id
    let existingIds := existing.map fun t => t.id
    let notFoundIds := ids.filter fun i => !(existingIds.contains i)
    if action = "complete" then
      let updatedIds :=
        (store.filter fun t =>
          existingIds.contains t.id && t.status != TaskStatus.completed).map fun t => t.id
      let store' := store.map fun t =>
        if existingIds.contains t.id && t.status != TaskStatus.completed
        then { t with status := TaskStatus.completed, updatedAt := now } else t
      let perItem := ids.map fun i =>
        if !(existingIds.contains i) then BatchItemResult.err i "not_found"
        else if updatedIds.contains i then BatchItemResult.ok i "updated"
        else BatchItemResult.ok i "noop"
      let q' :=
        if updatedIds.length != 0 then
          if qAvailable then
            updatedIds.foldl (fun acc i => enqueue acc (updJob i TaskStatus.completed)) q
          else q
        else q
      (.ok { res := { action := action, requested := ids.length,
                      affected := updatedIds.length, notFound := notFoundIds.length,
                      results := perItem },
             store := store', queue := q' },
       [DbOp.readTasks ids, DbOp.bulkUpdate existingIds])
    else if action = "delete" then
      let store' := store.filter fun t => !(existingIds.contains t.id)
      let affected := (store.filter fun t => existingIds.contains t.id).length
      let perItem := ids.map fun i =>
        if !(existingIds.contains i) then BatchItemResult.err i "not_found"
        else BatchItemResult.ok i "deleted"
      (.ok { res := { action := action, requested := ids.length,
                      affected := affected, notFound := notFoundIds.length,
                      results := perItem },
             store := store', queue := q },
       [DbOp.readTasks ids, DbOp.bulkDelete existingIds])
    else
      (.error (.badRequest ("Unknown action: " ++ action)), [DbOp.readTasks ids])

/-- The page loop of `OverdueTasksService.checkOverdueTasks`
(overdue-tasks.service.ts lines 39-75).  Each iteration issues one page query
(`take: 500`, `skip: page * 500`), sets `hasMore` when the page is full,
increments `page`, breaks early when the very first page is empty, enqueues
one `process-overdue-task` job keyed `overdue-<taskId>` per row, and
accumulates `totalProcessed`.  Returns the queue, the number of page queries
issued, and `totalProcessed`. -/
def checkOverdueLoop (store : TaskStore) (dueBefore : Nat) (page : Nat) (q : Queue)
    (queries totalProcessed : Nat) : Queue × Nat × Nat :=
  let overdueTasks := ((store.filter (overdueWhere dueBefore)).drop (page * 500)).take 500
  if overdueTasks.length = 0 ∧ page + 1 = 1 then
    (q, queries + 1, totalProcessed)
  else
    let q' := overdueTasks.foldl (fun acc t => enqueue acc (overdueJob t.id)) q
    if h : overdueTasks.length = 500 then
      checkOverdueLoop store dueBefore (page + 1) q' (queries + 1)
        (totalProcessed + overdueTasks.length)
    else
      (q', queries + 1, totalProcessed + overdueTasks.length)
termination_by (store.filter (overdueWhere dueBefore)).length - page * 500
decreasing_by
  simp only [overdueTasks, List.length_take, List.length_drop] at h
  omega

/-- `OverdueTasksService.checkOverdueTasks` (overdue-tasks.service.ts lines
32-81): compute `dueBefore = now - overdueHours * 3600000` ms and run the page
loop from page 0.  Returns the queue after the run, the number of page queries
issued, and the total of tasks queued. -/
def OverdueTasksService.checkOverdueTasks (store : TaskStore) (q : Queue)
    (now overdueHours : Nat) : Queue × Nat × Nat :=
  checkOverdueLoop store (now - overdueHours * 3600000) 0 q 0 0

/-- The page loop of `TaskProcessorService.handleOverdueTasks`
(task-processor.service.ts lines 89-106): page through
`findOverdueTasks(100, offset)` until an empty page, optionally notifying
`(userId, taskId)` per row, accumulating the processed count. -/
def handleOverdueLoop (store : TaskStore) (now : Nat) (offset : Nat)
    (total : Nat) (notifs : List (String × String)) (notify : Bool) :
    Nat × List (String × String) :=
  let overdueTasks := TasksService.findOverdueTasks store now 100 offset
  if h : overdueTasks.length = 0 then (total, notifs)
  else
    handleOverdueLoop store now (offset + 100) (total + overdueTasks.length)
      (notifs ++ (if notify then overdueTasks.map (fun t => (t.userId, t.id)) else []))
      notify
termination_by (store.filter (overdueWhere now)).length - offset
decreasing_by
  simp only [overdueTasks, TasksService.findOverdueTasks,
    List.length_take, List.length_drop] at h
  omega

/-- What a job handler reports back to the worker on a non-thrown completion. -/
inductive JobResult where
  /-- `handleStatusUpdate` success: `{ success: true, taskId, newStatus }` -/
  | statusUpdated (taskId : String) (newStatus : TaskStatus)
  /-- `handleStatusUpdate` missing-data path: `{ success: false, error }`, not retried -/
  | statusFailed (error : String)
  /-- `handleOverdueTasks` success: `{ success: true, count }` -/
  | overdueDone (count : Nat)
deriving DecidableEq, Repr

/-- `TaskProcessorService.process` (task-processor.service.ts lines 33-64):
dispatch a claimed job by its name.  `task-status-update` goes to
`handleStatusUpdate` (lines 66-87): a falsy `taskId` (or a payload of the
wrong shape, whose fields read as undefined) is a non-retryable logical
failure returned as `statusFailed`; otherwise `TasksService.updateStatus`
runs and its NotFound error propagates (and is rethrown for retry).
`overdue-tasks-notification` goes to `handleOverdueTasks`.  Any other name
throws `Unknown job type: <name>`. -/
def TaskProcessorService.process (store : TaskStore) (job : QueueJob) (now : Nat) :
    Except String (TaskStore × JobResult) :=
  match job.name with
  | "task-status-update" =>
    match job.data with
    | .statusUpdate taskId status =>
      if taskId == "" then .ok (store, .statusFailed "Missing required data")
      else
        match TasksService.updateStatus store taskId status now with
        | .error _ => .error "Task not found"
        | .ok (store', t) => .ok (store', .statusUpdated t.id t.status)
    | _ => .ok (store, .statusFailed "Missing required data")
  | "overdue-tasks-notification" =>
    let notify := match job.data with | .overdueNotification b => b | _ => false
    let r := handleOverdueLoop store now 0 0 [] notify
    .ok (store, .overdueDone r.1)
  | other => .error ("Unknown job type: " ++ other)

/-- The `(store, returned task)` pair of an update result, `none` on error. -/
def updateData : Except ServiceError UpdateOutcome → Option (TaskStore × TaskEntity)
  | .ok o => some (o.store, o.task)
  | .error _ => none

/-- The queue after an update; on error the caller's queue is unchanged. -/
def updateQueueOf : Except ServiceError UpdateOutcome → Queue → Queue
  | .ok o, _ => o.queue
  | .error _, q0 => q0

/-- The committed store after an update; on error the store is unchanged. -/
def updateStoreOf : Except ServiceError UpdateOutcome → TaskStore → TaskStore
  | .ok o, _ => o.store
  | .error _, s0 => s0

/-- The `(result, store)` pair of a batch outcome, `none` on error. -/
def batchData : Except ServiceError BatchOutcome → Option (BatchProcessResult × TaskStore)
  | .ok o => some (o.res, o.store)
  | .error _ => none

/-- The queue after a batch call; on error the caller's queue is unchanged. -/
def batchQueueOf : Except ServiceError BatchOutcome → Queue → Queue
  | .ok o, _ => o.queue
  | .error _, q0 => q0

/-- The per-item entries of a batch outcome, `[]` on error. -/
def batchResults : Except ServiceError BatchOutcome → List BatchItemResult
  | .ok o => o.res.results
  | .error _ => []

/-- An item entry is tagged with exactly one of the four defined outcomes. -/
def validOutcome : BatchItemResult → Bool
  | .ok _ r => r == "updated" || r == "noop" || r == "deleted"
  | .err _ e => e == "not_found"

/-- Follows the spec's words (section 3): `completed` is the terminal status;
`pending` and `in_progress` are non-terminal.  Used to compare the spec's
`findOverdue` contract ("non-terminal tasks") with the code's WHERE clause. -/
def nonTerminalStatus : TaskStatus → Bool
  | .completed => false
  | _ => true

/-- Follows the spec's words (section 4.1, `findOverdue`): a task the spec says
an overdue scan must return - non-terminal status, due date strictly before
the cutoff. -/
def specOverdue (cutoff : Nat) (t : TaskEntity) : Bool :=
  nonTerminalStatus t.status
    && (match t.dueDate with | some d => decide (d < cutoff) | none => false)

/-- A pending sample row, due at time 5, used in concrete scenarios. -/
def taskA : TaskEntity :=
  { id := "a", title := "A", description := "da", status := .pending
    priority := .high, dueDate := some 5, userId := "u1", createdAt := 0, updatedAt := 0 }

/-- An already-completed sample row. -/
def taskB : TaskEntity :=
  { id := "b", title := "B", description := "db", status := .completed
    priority := .low, dueDate := some 5, userId := "u2", createdAt := 0, updatedAt := 0 }

/-- An in-progress sample row, due at time 5 (non-terminal but not pending). -/
def taskP : TaskEntity :=
  { id := "p", title := "P", description := "dp", status := .in_progress
    priority := .medium, dueDate := some 5, userId := "u3", createdAt := 0, updatedAt := 0 }

/-- A patch that only sets the status to `in_progress`. -/
def dtoInProg : UpdateTaskDto :=
  { title := none, description := none, status := some .in_progress
    priority := none, dueDate := none }

/-- A concrete create payload. -/
def dtoCreateA : CreateTaskDto :=
  { title := "A", description := "da", status := .pending
    priority := .low, dueDate := none, userId := "u1" }

/-- Left cancellation of string concatenation (job keys share a fixed text
before the task id, so distinct ids give distinct keys). -/
theorem string_append_cancel_left {s a b : String} (h : s ++ a = s ++ b) : a = b := by
  apply String.ext
  have h2 := congrArg String.data h
  simp only [String.data_append] at h2
  exact List.append_cancel_left h2

/-- A job without a dedupe key is always appended. -/
theorem enqueue_none {j : QueueJob} (hj : j.jobId = none) (q : Queue) :
    enqueue q j = q ++ [j] := by
  simp [enqueue, hj]

/-- A keyed job whose key is not yet pending is appended. -/
theorem enqueue_keyed_fresh {j : QueueJob} {k : String} (hj : j.jobId = some k) (q : Queue)
    (hq : (List.any q fun j2 => j2.jobId == some k) = false) :
    enqueue q j = q ++ [j] := by
  simp [enqueue, hj, hq]

/-- A keyed job whose key is already pending is a no-op. -/
theorem enqueue_keyed_present {j : QueueJob} {k : String} (hj : j.jobId = some k) (q : Queue)
    (hq : (List.any q fun j2 => j2.jobId == some k) = true) :
    enqueue q j = q := by
  simp [enqueue, hj, hq]

/-- Enqueuing a batch of overdue jobs whose keys are pairwise distinct and not
yet pending appends exactly one job per task. -/
theorem foldl_overdue_fresh :
    ∀ (ts : List TaskEntity) (q : Queue),
      (ts.map fun t => t.id).Nodup →
      (∀ t ∈ ts, (List.any q fun j2 => j2.jobId == some ("overdue-" ++ t.id)) = false) →
      ts.foldl (fun acc t => enqueue acc (overdueJob t.id)) q
        = q ++ ts.map fun t => overdueJob t.id
  | [], q, _, _ => by simp
  | t :: rest, q, hnd, hfresh => by
    have hnd' := List.nodup_cons.mp (show (t.id :: rest.map fun t => t.id).Nodup from hnd)
    have hfresh' : ∀ t' ∈ rest,
        (List.any (q ++ [overdueJob t.id]) fun j2 =>
          j2.jobId == some ("overdue-" ++ t'.id)) = false := by
      intro t' ht'
      have hne : ¬ t.id = t'.id := by
        intro hEq
        exact hnd'.1 (by simpa [hEq] using List.mem_map_of_mem (fun t => t.id) ht')
      have hkey : ¬ (("overdue-" ++ t.id : String) = "overdue-" ++ t'.id) :=
        fun hEq => hne (string_append_cancel_left hEq)
      simp [List.any_append, hfresh t' (List.mem_cons_of_mem _ ht'), overdueJob, hkey]
    simp only [List.foldl_cons, List.map_cons]
    rw [enqueue_keyed_fresh (k := "overdue-" ++ t.id) rfl q (hfresh t (by simp)),
      foldl_overdue_fresh rest (q ++ [overdueJob t.id]) hnd'.2 hfresh']
    simp

/-- Re-enqueuing overdue jobs whose keys are all already pending leaves the
queue unchanged (the scanner may be re-run before the jobs complete). -/
theorem foldl_overdue_present :
    ∀ (ts : List TaskEntity) (q : Queue),
      (∀ t ∈ ts, (List.any q fun j2 => j2.jobId == some ("overdue-" ++ t.id)) = true) →
      ts.foldl (fun acc t => enqueue acc (overdueJob t.id)) q = q
  | [], _, _ => by simp
  | t :: rest, q, hpres => by
    simp only [List.foldl_cons]
    rw [enqueue_keyed_present (k := "overdue-" ++ t.id) rfl q (hpres t (by simp)),
      foldl_overdue_present rest q (fun t' ht' => hpres t' (List.mem_cons_of_mem _ ht'))]

/-- Closed form of the scanner's page loop over a store that is not mutated
during the run: starting from any page, the loop folds the remaining suffix of
the overdue rows into the queue, issues one query per page plus the final
short page, and adds the number of remaining overdue rows to the counter. -/
theorem checkOverdueLoop_spec :
    ∀ (n : Nat) (store : TaskStore) (dueBefore page : Nat) (q : Queue)
      (queries totalProcessed : Nat),
      (store.filter (overdueWhere dueBefore)).length - page * 500 ≤ n →
      checkOverdueLoop store dueBefore page q queries totalProcessed =
        (((store.filter (overdueWhere dueBefore)).drop (page * 500)).foldl
            (fun acc t => enqueue acc (overdueJob t.id)) q,
         queries + ((store.filter (overdueWhere dueBefore)).length - page * 500) / 500 + 1,
         totalProcessed + ((store.filter (overdueWhere dueBefore)).length - page * 500)) := by
  intro n
  induction n with
  | zero =>
    intro store dueBefore page q queries totalProcessed hn
    have hdrop : (store.filter (overdueWhere dueBefore)).drop (page * 500) = [] := by
      apply List.drop_eq_nil_of_le
      omega
    rw [checkOverdueLoop]
    simp only [hdrop, List.take_nil, List.length_nil, List.foldl_nil]
    have hz : (store.filter (overdueWhere dueBefore)).length - page * 500 = 0 := by omega
    by_cases hp : page + 1 = 1
    · simp [hp, hz]
    · simp [hp, hz]
  | succ n ih =>
    intro store dueBefore page q queries totalProcessed hn
    by_cases hle : (store.filter (overdueWhere dueBefore)).length - page * 500 ≤ n
    · exact ih store dueBefore page q queries totalProcessed hle
    · rw [checkOverdueLoop]
      have hlen : (((store.filter (overdueWhere dueBefore)).drop (page * 500)).take 500).length
          = min 500 ((store.filter (overdueWhere dueBefore)).length - page * 500) := by
        simp [List.length_take, List.length_drop]
      by_cases h500 : (((store.filter (overdueWhere dueBefore)).drop (page * 500)).take 500).length = 500
      · have hge : 500 ≤ (store.filter (overdueWhere dueBefore)).length - page * 500 := by
          rw [hlen] at h500; omega
        have hbreak : ¬ ((((store.filter (overdueWhere dueBefore)).drop (page * 500)).take 500).length = 0
            ∧ page + 1 = 1) := by
          rw [h500]; omega
        simp only [if_neg hbreak, dif_pos h500]
        rw [ih store dueBefore (page + 1) _ _ _ (by omega)]
        have hsplit : (store.filter (overdueWhere dueBefore)).drop (page * 500)
            = ((store.filter (overdueWhere dueBefore)).drop (page * 500)).take 500
              ++ (store.filter (overdueWhere dueBefore)).drop ((page + 1) * 500) := by
          rw [show (page + 1) * 500 = page * 500 + 500 by ring, ← List.drop_drop,
            List.take_append_drop]
        simp only [Prod.mk.injEq, h500]
        refine ⟨?_, ?_, ?_⟩
        · rw [← List.foldl_append, ← hsplit]
        · omega
        · omega
      · have hlt : (store.filter (overdueWhere dueBefore)).length - page * 500 < 500 := by
          rw [hlen] at h500; omega
        have htake : ((store.filter (overdueWhere dueBefore)).drop (page * 500)).take 500
            = (store.filter (overdueWhere dueBefore)).drop (page * 500) := by
          apply List.take_of_length_le
          simp only [List.length_drop]
          omega
        by_cases hbreak : ((((store.filter (overdueWhere dueBefore)).drop (page * 500)).take 500).length = 0
            ∧ page + 1 = 1)
        · have hz : (store.filter (overdueWhere dueBefore)).length - page * 500 = 0 := by
            rw [hlen] at hbreak; omega
          have hdrop : (store.filter (overdueWhere dueBefore)).drop (page * 500) = [] := by
            apply List.drop_eq_nil_of_le; omega
          simp [hbreak, hdrop, hz]
        · rw [htake] at hbreak h500
          simp only [htake, if_neg hbreak, dif_neg h500]
          simp only [Prod.mk.injEq]
          refine ⟨trivial, ?_, ?_⟩
          · omega
          · simp only [List.length_drop]

/-- Consecutive fixed-size slices of a list, read in page order, reproduce its
prefix: `n` pages of size `B` give the first `n * B` elements. -/
theorem flatMap_range_slices {α : Type} (B : Nat) (l : List α) :
    ∀ n : Nat, (List.range n).flatMap (fun k => (l.drop (k * B)).take B) = l.take (n * B)
  | 0 => by simp
  | n + 1 => by
    rw [List.range_succ, List.flatMap_append, flatMap_range_slices B l n]
    simp only [List.flatMap_cons, List.flatMap_nil, List.append_nil]
    rw [show (n + 1) * B = n * B + B by ring, List.take_add]

/-- Paging with any positive batch size `B` at offsets `0, B, 2B, ...` until
just past `length / B` pages covers the whole list exactly once. -/
theorem flatMap_range_slices_all {α : Type} (B : Nat) (hB : 0 < B) (l : List α) :
    (List.range (l.length / B + 1)).flatMap (fun k => (l.drop (k * B)).take B) = l := by
  rw [flatMap_range_slices B l (l.length / B + 1)]
  apply List.take_of_length_le
  exact Nat.le_of_lt ((Nat.div_lt_iff_lt_mul hB).mp (Nat.lt_succ_self _))

/-- Patching in place the first row a `find?` returns: if `f` preserves the
search predicate, the patched store's `find?` returns the patched row. -/
theorem find?_map_patched {α : Type} {p : α → Bool} {f : α → α}
    (hf : ∀ t, p (f t) = p t) :
    ∀ (s : List α) (b : α), s.find? p = some b →
      (s.map fun t => if p t then f t else t).find? p = some (f b)
  | a :: s, b, h => by
    by_cases hpa : p a = true
    · rw [List.find?_cons_of_pos _ hpa] at h
      simp only [List.map_cons, if_pos hpa]
      rw [List.find?_cons_of_pos _ (by rw [hf]; exact hpa)]
      cases h
      rfl
    · rw [List.find?_cons_of_neg _ (by simpa using hpa)] at h
      simp only [List.map_cons, if_neg hpa]
      rw [List.find?_cons_of_neg _ (by simpa using hpa)]
      exact find?_map_patched hf s b h

/-- A mapped per-item builder that tags each id with its own id and a defined
outcome yields one well-tagged entry per input id, in input order. -/
theorem perItem_shape (g : String → BatchItemResult)
    (hg : ∀ i, (g i).taskId = i) (hv : ∀ i, validOutcome (g i) = true) :
    ∀ ids : List String,
      (ids.map g).map BatchItemResult.taskId = ids ∧ (ids.map g).all validOutcome = true
  | [] => by simp
  | i :: ids => by
    have ih := perItem_shape g hg hv ids
    simp [hg i, hv i, ih.1, ih.2]

/-- C1: queue-layer failures during the side-effect enqueue of
`TasksService.create`, `TasksService.update` and `TasksService.batchProcess`
are swallowed: with the queue transport down the operation returns the same
success value, commits the same store state and issues the same statements as
with the transport up, and the queue is simply left unchanged. -/
theorem c1_queue_failure_isolated (store : TaskStore) (q : Queue) (dto : CreateTaskDto)
    (udto : UpdateTaskDto) (newId uid : String) (now : Nat) (ids : List String)
    (act : String) :
    ((TasksService.create store q false dto newId now).store =
        (TasksService.create store q true dto newId now).store ∧
      (TasksService.create store q false dto newId now).task =
        (TasksService.create store q true dto newId now).task ∧
      (TasksService.create store q false dto newId now).queue = q) ∧
    (updateData (TasksService.update store q false uid udto now) =
        updateData (TasksService.update store q true uid udto now) ∧
      updateQueueOf (TasksService.update store q false uid udto now) q = q) ∧
    (batchData (TasksService.batchProcess store q false ids act now).1 =
        batchData (TasksService.batchProcess store q true ids act now).1 ∧
      (TasksService.batchProcess store q false ids act now).2 =
        (TasksService.batchProcess store q true ids act now).2 ∧
      batchQueueOf (TasksService.batchProcess store q false ids act now).1 q = q) := by
  refine ⟨⟨rfl, rfl, rfl⟩, ⟨?_, ?_⟩, ?_, ?_, ?_⟩
  · cases hf : store.find? (fun t => t.id == uid) <;>
      simp [TasksService.update, updateData, hf]
  · cases hf : store.find? (fun t => t.id == uid) <;>
      simp [TasksService.update, updateQueueOf, hf]
  · by_cases h0 : ids.length = 0
    · simp [TasksService.batchProcess, h0, batchData]
    · by_cases hc : act = "complete"
      · simp [TasksService.batchProcess, h0, hc, batchData]
      · by_cases hd : act = "delete"
        · simp [TasksService.batchProcess, h0, hc, hd, batchData]
        · simp [TasksService.batchProcess, h0, hc, hd, batchData]
  · by_cases h0 : ids.length = 0
    · simp [TasksService.batchProcess, h0]
    · by_cases hc : act = "complete"
      · simp [TasksService.batchProcess, h0, hc]
      · by_cases hd : act = "delete"
        · simp [TasksService.batchProcess, h0, hc, hd]
        · simp [TasksService.batchProcess, h0, hc, hd]
  · by_cases h0 : ids.length = 0
    · simp [TasksService.batchProcess, h0, batchQueueOf]
    · by_cases hc : act = "complete"
      · simp [TasksService.batchProcess, h0, hc, batchQueueOf]
      · by_cases hd : act = "delete"
        · simp [TasksService.batchProcess, h0, hc, hd, batchQueueOf]
        · simp [TasksService.batchProcess, h0, hc, hd, batchQueueOf]

/-- C2: batch `complete` over ids `[a, b, c]` where `a` is pending, `b` is
already completed and `c` does not exist returns requested 3, affected 1,
notFound 1, and exactly one entry per id: `a` updated, `b` noop, `c`
not_found. -/
theorem c2_batch_scenario :
    TasksService.batchProcess [taskA, taskB] [] true ["a", "b", "c"] "complete" 7 =
      (.ok { res := { action := "complete", requested := 3, affected := 1, notFound := 1,
                      results := [.ok "a" "updated", .ok "b" "noop", .err "c" "not_found"] },
             store := [{ taskA with status := .completed, updatedAt := 7 }, taskB],
             queue := [updJob "a" .completed] },
       [DbOp.readTasks ["a", "b", "c"], DbOp.bulkUpdate ["a", "b"]]) := by
  decide

/-- C3: for a deduplicated, nonempty id list and a known action, the batch
result has exactly one entry per input id (its task ids are the input list
itself) and every entry is tagged with one of the outcomes
`updated` / `noop` / `deleted` / `not_found`. -/
theorem c3_batch_completeness (store : TaskStore) (q : Queue) (qa : Bool)
    (ids : List String) (act : String) (now : Nat)
    (hne : ids ≠ []) (hnd : ids.Nodup) (ha : act = "complete" ∨ act = "delete") :
    (batchResults (TasksService.batchProcess store q qa ids act now).1).map
        BatchItemResult.taskId = ids ∧
    (batchResults (TasksService.batchProcess store q qa ids act now).1).all
        validOutcome = true := by
  have h0 : ¬ ids.length = 0 := fun h => hne (List.length_eq_zero.mp h)
  rcases ha with ha | ha <;> subst ha
  · simp only [TasksService.batchProcess, if_neg h0, if_pos rfl, batchResults]
    refine perItem_shape _ (fun i => ?_) (fun i => ?_) ids
    · split
      · rfl
      · split <;> rfl
    · split
      · rfl
      · split <;> rfl
  · simp only [TasksService.batchProcess, if_neg h0,
      if_neg (by decide : ¬ ("delete" = "complete")), if_pos rfl, batchResults]
    refine perItem_shape _ (fun i => ?_) (fun i => ?_) ids
    · split <;> rfl
    · split <;> rfl

/-- C8 counterexample: calling batchProcess with the nonempty id list `[a]`
and the unknown action `archive` does fail with a BadRequestException, but
only after the existence fetch has been issued: the statement trace holds one
read query, so "no query is issued" is false. -/
theorem c8_counterexample :
    TasksService.batchProcess [] [] true ["a"] "archive" 0 =
      (.error (.badRequest "Unknown action: archive"), [DbOp.readTasks ["a"]]) ∧
    [DbOp.readTasks ["a"]] ≠ ([] : List DbOp) := by
  exact ⟨rfl, by decide⟩

/-- C8 (amended): for a nonempty id list and an action that is neither
`complete` nor `delete`, batchProcess fails with a BadRequestException and no
write statement runs - the store is untouched because the transaction aborts -
but one read statement, the existence fetch, has already been issued. -/
theorem c8_unknown_action (store : TaskStore) (q : Queue) (qa : Bool)
    (ids : List String) (act : String) (now : Nat)
    (hne : ids ≠ []) (hc : act ≠ "complete") (hd : act ≠ "delete") :
    TasksService.batchProcess store q qa ids act now =
      (.error (.badRequest ("Unknown action: " ++ act)), [DbOp.readTasks ids]) := by
  have h0 : ¬ ids.length = 0 := fun h => hne (List.length_eq_zero.mp h)
  simp only [TasksService.batchProcess, if_neg h0, if_neg hc, if_neg hd]

/-- Witness for the amended C8 theorem at a concrete input. -/
theorem c8_unknown_action_witness :
    TasksService.batchProcess [taskA] [] true ["a"] "archive" 3 =
      (.error (.badRequest ("Unknown action: " ++ "archive")), [DbOp.readTasks ["a"]]) :=
  c8_unknown_action [taskA] [] true ["a"] "archive" 3 (by decide) (by decide) (by decide)

/-- C4: `TasksService.update` on an existing row enqueues a status-update job
if and only if the patch carries a status different from the pre-update
status; and an immediately repeated identical update is a no-op queue-wise,
because after the first call the stored status already equals the patched
one. -/
theorem c4_update_enqueue_iff (store : TaskStore) (q q2 : Queue) (id : String)
    (dto : UpdateTaskDto) (now now2 : Nat) (before : TaskEntity)
    (h : store.find? (fun t => t.id == id) = some before) :
    TasksService.update store q true id dto now =
      .ok { store := store.map fun t => if t.id == id then applyPatch t dto now else t
            queue := match dto.status with
                     | some st => if st == before.status then q
                                  else q ++ [updJob (applyPatch before dto now).id st]
                     | none => q
            task := applyPatch before dto now } ∧
    updateQueueOf
      (TasksService.update (store.map fun t => if t.id == id then applyPatch t dto now else t)
        q2 true id dto now2) q2 = q2 := by
  constructor
  · simp only [TasksService.update, h]
    cases hst : dto.status with
    | none => simp [hst]
    | some st =>
      by_cases heq : st == before.status
      · have : (st != before.status) = false := by
          simp only [bne, heq, Bool.not_true]
        simp [hst, this, heq]
      · have : (st != before.status) = true := by
          simp only [bne, Bool.not_eq_true']
          simpa using heq
        have hpid : (applyPatch before dto now).status = st := by
          simp [applyPatch, hst]
        have hne2 : ¬ st = before.status := by simpa using heq
        simp only [hst, this, if_true]
        rw [enqueue_none rfl]
        simp [hpid, hne2]
  · have h2 : (store.map fun t => if t.id == id then applyPatch t dto now else t).find?
        (fun t => t.id == id) = some (applyPatch before dto now) := by
      have hf : ∀ t : TaskEntity, ((applyPatch t dto now).id == id) = (t.id == id) := by
        intro t; rfl
      exact find?_map_patched hf store before h
    simp only [TasksService.update, h2, updateQueueOf]
    cases hst : dto.status with
    | none => simp
    | some st =>
      have : (st != (applyPatch before dto now).status) = false := by
        simp [bne, applyPatch, hst]
      simp [this]

/-- Witness for C4: one pending row `a`; patching status to `in_progress`
appends exactly one keyless job, and re-running the same patch on the updated
store leaves the queue unchanged. -/
theorem c4_update_enqueue_iff_witness :
    TasksService.update [taskA] [] true "a" dtoInProg 1 =
      .ok { store := [taskA].map fun t => if t.id == "a" then applyPatch t dtoInProg 1 else t
            queue := match dtoInProg.status with
                     | some st => if st == taskA.status then []
                                  else [] ++ [updJob (applyPatch taskA dtoInProg 1).id st]
                     | none => []
            task := applyPatch taskA dtoInProg 1 } ∧
    updateQueueOf
      (TasksService.update ([taskA].map fun t => if t.id == "a" then applyPatch t dtoInProg 1 else t)
        [updJob "a" .in_progress] true "a" dtoInProg 2) [updJob "a" .in_progress] =
      [updJob "a" .in_progress] :=
  c4_update_enqueue_iff [taskA] [] [updJob "a" .in_progress] "a" dtoInProg 1 2 taskA rfl

/-- C10: `TasksService.update` on an existing row returns a row image that
keeps `id`, `createdAt`, `userId` and every field absent from the patch at
their pre-update values, refreshes `updatedAt` server-side, and is exactly the
row the committed store now holds under that id. -/
theorem c10_update_frame (store : TaskStore) (q : Queue) (id : String)
    (dto : UpdateTaskDto) (now : Nat) (before : TaskEntity) (o : UpdateOutcome)
    (h : store.find? (fun t => t.id == id) = some before)
    (ho : TasksService.update store q true id dto now = .ok o) :
    o.task.id = before.id ∧ o.task.createdAt = before.createdAt ∧
    o.task.userId = before.userId ∧ o.task.updatedAt = now ∧
    (dto.title = none → o.task.title = before.title) ∧
    (dto.description = none → o.task.description = before.description) ∧
    (dto.status = none → o.task.status = before.status) ∧
    (dto.priority = none → o.task.priority = before.priority) ∧
    (dto.dueDate = none → o.task.dueDate = before.dueDate) ∧
    o.store.find? (fun t => t.id == id) = some o.task := by
  simp only [TasksService.update, h] at ho
  have ho2 := Except.ok.inj ho
  subst ho2
  refine ⟨rfl, rfl, rfl, rfl, ?_, ?_, ?_, ?_, ?_, ?_⟩
  · intro ht; simp [applyPatch, ht]
  · intro ht; simp [applyPatch, ht]
  · intro ht; simp [applyPatch, ht]
  · intro ht; simp [applyPatch, ht]
  · intro ht; simp [applyPatch, ht]
  · exact find?_map_patched (p := fun t => t.id == id) (f := fun t => applyPatch t dto now)
      (fun t => rfl) store before h

/-- Witness for C10 at a concrete input: patching only the status of row `a`
keeps identity, audit and descriptive fields, refreshes `updatedAt`, and the
committed row equals the returned image. -/
theorem c10_update_frame_witness :
    (applyPatch taskA dtoInProg 1).id = taskA.id ∧
    (applyPatch taskA dtoInProg 1).createdAt = taskA.createdAt ∧
    (applyPatch taskA dtoInProg 1).userId = taskA.userId ∧
    (applyPatch taskA dtoInProg 1).updatedAt = 1 ∧
    (dtoInProg.title = none → (applyPatch taskA dtoInProg 1).title = taskA.title) ∧
    (dtoInProg.description = none →
      (applyPatch taskA dtoInProg 1).description = taskA.description) ∧
    (dtoInProg.status = none → (applyPatch taskA dtoInProg 1).status = taskA.status) ∧
    (dtoInProg.priority = none → (applyPatch taskA dtoInProg 1).priority = taskA.priority) ∧
    (dtoInProg.dueDate = none → (applyPatch taskA dtoInProg 1).dueDate = taskA.dueDate) ∧
    List.find? (fun t => t.id == "a") [applyPatch taskA dtoInProg 1] =
      some (applyPatch taskA dtoInProg 1) :=
  c10_update_frame [taskA] [] "a" dtoInProg 1 taskA
    { store := [applyPatch taskA dtoInProg 1]
      queue := [updJob "a" .in_progress]
      task := applyPatch taskA dtoInProg 1 }
    rfl (by decide)

/-- C5 counterexample: the status-update enqueue performed by
`TasksService.update` carries no deduplication key at all (`jobId = none`),
and enqueuing that same keyless `(taskId, status)` job twice leaves two
pending jobs, so the at-most-one-pending-job property fails on the update
path. -/
theorem c5_counterexample :
    TasksService.update [taskA] [] true "a" dtoInProg 1 =
      .ok { store := [applyPatch taskA dtoInProg 1]
            queue := [updJob "a" .in_progress]
            task := applyPatch taskA dtoInProg 1 } ∧
    (updJob "a" .in_progress).jobId = none ∧
    enqueue (enqueue [] (updJob "a" .in_progress)) (updJob "a" .in_progress) =
      [updJob "a" .in_progress, updJob "a" .in_progress] := by
  refine ⟨by decide, rfl, by decide⟩

/-- C5 (amended): the create path's status-update enqueue does carry the
dedupe key `task-status-update:<taskId>:<status>` determined by
`(taskId, status)`, and enqueuing any keyed job twice is idempotent, so
repeated creates of the same logical event leave at most one pending job of
that key; the update path (and the batch bulk enqueue) enqueue keyless jobs. -/
theorem c5_create_dedupe (store : TaskStore) (q q2 : Queue) (dto : CreateTaskDto)
    (newId : String) (now : Nat) (j : QueueJob) (k : String) (hj : j.jobId = some k) :
    (TasksService.create store q true dto newId now).queue =
      enqueue q (createJob newId dto.status) ∧
    (createJob newId dto.status).jobId =
      some ("task-status-update:" ++ newId ++ ":" ++ statusText dto.status) ∧
    enqueue (enqueue q2 j) j = enqueue q2 j := by
  refine ⟨rfl, rfl, ?_⟩
  by_cases hp : (List.any q2 fun j2 => j2.jobId == some k) = true
  · rw [enqueue_keyed_present hj q2 hp, enqueue_keyed_present hj q2 hp]
  · rw [enqueue_keyed_fresh hj q2 (by simpa using hp)]
    apply enqueue_keyed_present hj
    simp [List.any_append, hj]

/-- Witness for the amended C5 theorem: a concrete create enqueues the keyed
job, and its immediate re-enqueue is a no-op. -/
theorem c5_create_dedupe_witness :
    (TasksService.create [] [] true dtoCreateA "n" 0).queue =
      enqueue [] (createJob "n" dtoCreateA.status) ∧
    (createJob "n" dtoCreateA.status).jobId =
      some ("task-status-update:" ++ "n" ++ ":" ++ statusText dtoCreateA.status) ∧
    enqueue (enqueue [] (createJob "n" .pending)) (createJob "n" .pending) =
      enqueue [] (createJob "n" .pending) :=
  c5_create_dedupe [] [] [] dtoCreateA "n" 0 (createJob "n" .pending)
    ("task-status-update:" ++ "n" ++ ":" ++ statusText TaskStatus.pending) rfl

/-- C6 counterexample: on a store with no overdue tasks (N = 0) a scan run
still issues one page query, where the claimed count ceil(N/B) = ceil(0/500)
is 0, so "exactly ceil(N/B) page queries" fails. -/
theorem c6_counterexample :
    OverdueTasksService.checkOverdueTasks [] [] 1000 0 = ([], 1, 0) ∧
    (0 + 500 - 1) / 500 = 0 := by
  constructor
  · rw [OverdueTasksService.checkOverdueTasks,
      checkOverdueLoop_spec 0 [] (1000 - 0 * 3600000) 0 [] 0 0 (by simp)]
    simp
  · decide

/-- C6 (amended): over a store holding N overdue tasks a scan run terminates
after exactly N / 500 + 1 page queries (one query per full page plus the
final short-or-empty page - this equals ceil(N/B) exactly when 500 does not
divide N), enqueues each overdue task exactly once under the key
`overdue-<taskId>`, and re-running the scan while those jobs are still
pending leaves the queue unchanged. -/
theorem c6_scan_pages (store : TaskStore) (now hrs : Nat) (overdue : List TaskEntity)
    (hov : store.filter (overdueWhere (now - hrs * 3600000)) = overdue)
    (hnd : (overdue.map fun t => t.id).Nodup) :
    OverdueTasksService.checkOverdueTasks store [] now hrs =
      (overdue.map fun t => overdueJob t.id, overdue.length / 500 + 1, overdue.length) ∧
    OverdueTasksService.checkOverdueTasks store (overdue.map fun t => overdueJob t.id) now hrs =
      (overdue.map fun t => overdueJob t.id, overdue.length / 500 + 1, overdue.length) := by
  constructor
  · rw [OverdueTasksService.checkOverdueTasks,
      checkOverdueLoop_spec overdue.length store (now - hrs * 3600000) 0 [] 0 0
        (by rw [hov]; omega)]
    rw [hov]
    simp only [Nat.zero_mul, List.drop_zero, Nat.sub_zero, Nat.zero_add]
    rw [foldl_overdue_fresh overdue [] hnd (fun t _ => rfl)]
    simp
  · have hpres : ∀ t ∈ overdue,
        (List.any (overdue.map fun t2 => overdueJob t2.id)
          fun j2 => j2.jobId == some ("overdue-" ++ t.id)) = true := by
      intro t ht
      rw [List.any_eq_true]
      exact ⟨overdueJob t.id, List.mem_map_of_mem _ ht, by simp [overdueJob]⟩
    rw [OverdueTasksService.checkOverdueTasks,
      checkOverdueLoop_spec overdue.length store (now - hrs * 3600000) 0 _ 0 0
        (by rw [hov]; omega)]
    rw [hov]
    simp only [Nat.zero_mul, List.drop_zero, Nat.sub_zero, Nat.zero_add]
    rw [foldl_overdue_present overdue _ hpres]

/-- Witness for the amended C6 theorem: one overdue pending task gives one
page query, one keyed job, and an idempotent re-run. -/
theorem c6_scan_pages_witness :
    OverdueTasksService.checkOverdueTasks [taskA] [] 10 0 =
      ([taskA].map fun t => overdueJob t.id, [taskA].length / 500 + 1, [taskA].length) ∧
    OverdueTasksService.checkOverdueTasks [taskA] ([taskA].map fun t => overdueJob t.id) 10 0 =
      ([taskA].map fun t => overdueJob t.id, [taskA].length / 500 + 1, [taskA].length) :=
  c6_scan_pages [taskA] 10 0 [taskA] (by decide) (by decide)

/-- C7 (code bug): on a store with one pending task due before the cutoff the
scanner enqueues exactly one job, named `process-overdue-task` and keyed
`overdue-a` - but the worker's dispatch only routes `task-status-update` and
`overdue-tasks-notification`, so that job hits the default branch and throws
`Unknown job type` instead of being processed with a count of 1. -/
theorem c7_overdue_job_unroutable :
    OverdueTasksService.checkOverdueTasks [taskA] [] 10 0 = ([overdueJob "a"], 1, 1) ∧
    (overdueJob "a").name = "process-overdue-task" ∧
    (overdueJob "a").jobId = some ("overdue-" ++ "a") ∧
    TaskProcessorService.process [taskA] (overdueJob "a") 10 =
      .error ("Unknown job type: " ++ "process-overdue-task") := by
  refine ⟨?_, rfl, rfl, ?_⟩
  · rw [OverdueTasksService.checkOverdueTasks,
      checkOverdueLoop_spec 1 [taskA] (10 - 0 * 3600000) 0 [] 0 0 (by decide)]
    decide
  · decide

/-- C9 counterexample: the row `p` is overdue (due 5, cutoff 10) and in the
non-terminal status `in_progress`, yet `findOverdueTasks` does not return it:
the query filters on `status = pending` alone, not on every non-terminal
status. -/
theorem c9_counterexample :
    specOverdue 10 taskP = true ∧
    TasksService.findOverdueTasks [taskP] 10 10 0 = [] := by
  decide

/-- C9 (amended): `findOverdueTasks` returns the pending-status tasks whose
due date is strictly before `now`, in store order, windowed by
`limit`/`offset` (the SQL query specifies no ORDER BY; the embedding fixes
the store's row order), and paginated calls with any positive batch size `B`
at offsets `0, B, 2B, ...` cover each such task exactly once. -/
theorem c9_pending_overdue_pages (store : TaskStore) (now B : Nat) (hB : 0 < B) :
    (List.range ((store.filter (overdueWhere now)).length / B + 1)).flatMap
        (fun k => TasksService.findOverdueTasks store now B (k * B)) =
      store.filter (overdueWhere now) := by
  simp only [TasksService.findOverdueTasks]
  exact flatMap_range_slices_all B hB _

/-- Witness for the amended C9 theorem: with batch size 1 over a two-row
store, the page concatenation reproduces the single pending overdue row. -/
theorem c9_pending_overdue_pages_witness :
    (List.range ((([taskA, taskP]).filter (overdueWhere 10)).length / 1 + 1)).flatMap
        (fun k => TasksService.findOverdueTasks [taskA, taskP] 10 1 (k * 1)) =
      ([taskA, taskP]).filter (overdueWhere 10) :=
  c9_pending_overdue_pages [taskA, taskP] 10 1 (by decide)

/-- Witness for C3 at a concrete input: ids `[a, c]` with `a` existing and `c`
absent give one well-tagged entry per id. -/
theorem c3_batch_completeness_witness :
    (batchResults (TasksService.batchProcess [taskA] [] true ["a", "c"] "complete" 0).1).map
        BatchItemResult.taskId = ["a", "c"] ∧
    (batchResults (TasksService.batchProcess [taskA] [] true ["a", "c"] "complete" 0).1).all
        validOutcome = true :=
  c3_batch_completeness [taskA] [] true ["a", "c"] "complete" 0 (by decide) (by decide)
    (Or.inl rfl)
